import Mathlib

/-!
Verification of the CEE course-scheduling conflict engine
(`conflict_engine.py` and the `/conflicts` endpoint of `app.py`).

Embedding conventions:
* Python floats are modelled as exact rationals (`ℚ`); `round(x, n)` is
  modelled by `pyRound n`, round-half-to-even on rationals.
* Pandas data frames are modelled as Lean lists of records, in row order.
* Python dictionaries keyed by strings are modelled either as update
  functions (`course_to_offering`, which is only ever looked up) or as
  association lists in key-insertion order (the accumulator dictionaries,
  which are iterated).
* Fallible Python code (exceptions) is modelled with `Option` / `Except`:
  `none` / `.error` means the Python code raises.
-/

namespace CeeScheduler

/-! ## Primitive string helpers

Python's `time_str.split(':')` and `int(...)` are modelled by structural
recursion on the character list so that concrete runs reduce in the kernel. -/

/-- Model of Python `str.split(sep)` for a single-character separator,
on an explicit character list with an accumulator for the current piece. -/
def splitOnCharAux (sep : Char) : List Char → List Char → List (List Char)
  | [], cur => [cur.reverse]
  | c :: cs, cur =>
    if c = sep then cur.reverse :: splitOnCharAux sep cs []
    else splitOnCharAux sep cs (c :: cur)

/-- Model of Python `str.split(sep)`. -/
def splitOnChar (sep : Char) (s : String) : List (List Char) :=
  splitOnCharAux sep s.data []

/-- Digit-string accumulator loop for `parseNat`. -/
def parseNatAux : List Char → Nat → Option Nat
  | [], acc => some acc
  | c :: cs, acc =>
    if c.isDigit then parseNatAux cs (acc * 10 + (c.toNat - '0'.toNat))
    else none

/-- Model of Python `int(s)` on the digit strings that occur in `HH:MM`
times: succeeds exactly on nonempty all-digit strings. -/
def parseNat : List Char → Option Nat
  | [] => none
  | c :: cs => parseNatAux (c :: cs) 0

/-! ## `conflict_engine.times_overlap` and its helper -/

/-- Model of the inner `time_to_minutes` helper of `times_overlap`:
split on `':'`, require exactly two integer fields `h` and `m`, and
return `h * 60 + m`.  `none` models the Python exception on malformed
input. -/
def time_to_minutes (t : String) : Option Nat :=
  match splitOnChar ':' t with
  | [h, m] =>
    match parseNat h, parseNat m with
    | some hn, some mn => some (hn * 60 + mn)
    | _, _ => none
  | _ => none

/-- Model of `conflict_engine.times_overlap`: convert the four `HH:MM`
strings to minutes-since-midnight and test `s1 < e2 and s2 < e1`. -/
def times_overlap (start1 end1 start2 end2 : String) : Option Bool :=
  match time_to_minutes start1, time_to_minutes end1,
        time_to_minutes start2, time_to_minutes end2 with
  | some s1, some e1, some s2, some e2 => some (decide (s1 < e2) && decide (s2 < e1))
  | _, _, _, _ => none

/-! ## `conflict_engine.day_patterns_conflict` -/

/-- Model of `conflict_engine.day_patterns_conflict`:
`len(set(pattern1).intersection(set(pattern2))) > 0`, i.e. some character
of the first pattern occurs in the second. -/
def day_patterns_conflict (pattern1 pattern2 : String) : Bool :=
  pattern1.data.any (fun c => pattern2.data.contains c)

/-- The four valid day patterns named by the module's docstring. -/
def validPatterns : List String := ["MW", "WF", "MF", "TR"]

/-- Modelled from the spec: the day-set decomposition table
MW→{M,W}, WF→{W,F}, MF→{M,F}, TR→{T,R} of section 4.1. -/
def specDaySet (p : String) : List Char :=
  if p = "MW" then ['M', 'W']
  else if p = "WF" then ['W', 'F']
  else if p = "MF" then ['M', 'F']
  else if p = "TR" then ['T', 'R']
  else []

/-! ## `conflict_engine.offerings_conflict` -/

/-- The dictionary value stored in `course_to_offering` and consumed by
`offerings_conflict`: an offering stripped of its course code. -/
structure OfferingSlot where
  day_pattern : String
  start_time : String
  end_time : String
  term : String
deriving DecidableEq

/-- Model of `conflict_engine.offerings_conflict`: reject cheaply when the
day patterns share no day, otherwise test time overlap.  `none` models a
Python exception raised while parsing a malformed time. -/
def offerings_conflict (offering1 offering2 : OfferingSlot) : Option Bool :=
  if !day_patterns_conflict offering1.day_pattern offering2.day_pattern then
    some false
  else
    times_overlap offering1.start_time offering1.end_time
      offering2.start_time offering2.end_time

/-! ## Data model of `calculate_conflicts` -/

/-- One row of the candidate schedule data frame. -/
structure Offering where
  course_code : String
  day_pattern : String
  start_time : String
  end_time : String
  term : String
deriving DecidableEq

/-- One row of the student-plans data frame.  The engine reads `path_type`
from the roster, not from this row, but the column is present in the
input. -/
structure StudentPlan where
  student_id : String
  course_code : String
  term : String
  likelihood : ℚ
  path_type : String
deriving DecidableEq

/-- One row of the student-roster data frame. -/
structure Student where
  student_id : String
  name : String
  year : String
  path_type : String
deriving DecidableEq

/-- The ways `calculate_conflicts` can raise: the positional `.iloc[0]`
lookup on an empty roster selection (`IndexError`), a malformed time
string inside `times_overlap` (`ValueError`), and the unguarded division
by `len(students_df)` (`ZeroDivisionError`). -/
inductive EngineError where
  | missingStudent (student_id : String)
  | malformedTime
  | divisionByZero
deriving DecidableEq

/-- The record appended to `student_scheduled_courses` for each planned
course that is present in the schedule lookup. -/
structure SchedCourse where
  course_code : String
  likelihood : ℚ
  offering : OfferingSlot
deriving DecidableEq

/-- The per-`path_type` accumulator value in `conflicts_by_path`. -/
structure PathAcc where
  expected_conflicts : ℚ
  students_with_conflict : List String
deriving DecidableEq

/-- The accumulator state of the student scan: the global expected-conflict
sum, the set of conflicted students, and the three accumulator
dictionaries (modelled as association lists in key-insertion order; the
student sets are duplicate-free lists in insertion order). -/
structure ScanAcc where
  total_expected_conflicts : ℚ
  students_with_conflict : List String
  conflicts_by_path : List (String × PathAcc)
  conflicts_by_course : List (String × ℚ)
  conflicts_by_pair : List ((String × String) × ℚ)
deriving DecidableEq

/-- The accumulator state before any student is processed. -/
def initialAcc : ScanAcc := ⟨0, [], [], [], []⟩

/-! ## Dictionary, set and list helpers -/

/-- Model of pandas `Series.unique()`: values in first-occurrence order. -/
def uniqueKeep (l : List String) : List String :=
  l.foldl (fun acc x => if acc.contains x then acc else acc ++ [x]) []

/-- Model of Python `set.add` on a duplicate-free list. -/
def insertSet (l : List String) (x : String) : List String :=
  if l.contains x then l else l ++ [x]

/-- Model of `conflicts_by_course[c] = conflicts_by_course.get(c, 0.0) + w`
on an association list with distinct keys. -/
def addCourseWeight : List (String × ℚ) → String → ℚ → List (String × ℚ)
  | [], c, w => [(c, w)]
  | e :: rest, c, w =>
    if e.1 == c then (e.1, e.2 + w) :: rest
    else e :: addCourseWeight rest c w

/-- Model of `conflicts_by_pair[k] = conflicts_by_pair.get(k, 0.0) + w`
on an association list with distinct keys. -/
def addPairWeight :
    List ((String × String) × ℚ) → String × String → ℚ →
      List ((String × String) × ℚ)
  | [], k, w => [(k, w)]
  | e :: rest, k, w =>
    if e.1 == k then (e.1, e.2 + w) :: rest
    else e :: addPairWeight rest k w

/-- Model of the `if path_type not in conflicts_by_path: ... = zero entry`
initialisation. -/
def initPath (l : List (String × PathAcc)) (pt : String) :
    List (String × PathAcc) :=
  if l.any (fun e => e.1 == pt) then l else l ++ [(pt, ⟨0, []⟩)]

/-- Model of an in-place update `conflicts_by_path[pt] = f(...)`; the key
is always present when the engine calls this. -/
def updatePath :
    List (String × PathAcc) → String → (PathAcc → PathAcc) →
      List (String × PathAcc)
  | [], _, _ => []
  | e :: rest, pt, f =>
    if e.1 == pt then (e.1, f e.2) :: rest
    else e :: updatePath rest pt f

/-- All ordered position pairs `i < j` of a list, in the order the nested
`for` loops of the student scan visit them. -/
def pairsOf {α : Type} : List α → List (α × α)
  | [] => []
  | x :: xs => xs.map (fun y => (x, y)) ++ pairsOf xs

/-- Lexicographic comparison of character lists by code point, as Python
compares strings. -/
def lexLeChars : List Char → List Char → Bool
  | [], _ => true
  | _ :: _, [] => false
  | x :: xs, y :: ys =>
    if x.toNat < y.toNat then true
    else if y.toNat < x.toNat then false
    else lexLeChars xs ys

/-- Model of Python string `<=`. -/
def lexLe (a b : String) : Bool := lexLeChars a.data b.data

/-- Model of `tuple(sorted([a, b]))`: the two strings in lexicographic
order. -/
def sortedPair (a b : String) : String × String :=
  if lexLe a b then (a, b) else (b, a)

/-- Exception-propagating left fold: the for-loop skeleton of the scan. -/
def foldE {ε σ α : Type} (f : σ → α → Except ε σ) : σ → List α → Except ε σ
  | s, [] => .ok s
  | s, x :: xs =>
    match f s x with
    | .error e => .error e
    | .ok s' => foldE f s' xs

/-! ## Rounding

Python `round(x, n)` on our exact-rational model of floats:
round-half-to-even at `n` decimal digits. -/

/-- Round-half-to-even to an integer. -/
def roundHalfEven (q : ℚ) : ℤ :=
  if q - ⌊q⌋ < 1/2 then ⌊q⌋
  else if (1 : ℚ)/2 < q - ⌊q⌋ then ⌊q⌋ + 1
  else if ⌊q⌋ % 2 = 0 then ⌊q⌋ else ⌊q⌋ + 1

/-- Model of Python `round(q, ndigits)` on exact rationals. -/
def pyRound (ndigits : Nat) (q : ℚ) : ℚ :=
  (roundHalfEven (q * 10 ^ ndigits) : ℚ) / 10 ^ ndigits

/-! ## Stable descending ranking

`sorted(items, key=lambda x: score(x), reverse=True)` is a stable sort:
items ordered by descending score, ties in original order.  It is modelled
by inserting each item, in original order, after all already-placed items
of greater-or-equal score. -/

/-- Insert `x` into a non-increasing list, after all entries whose score is
greater than or equal to its own. -/
def insertDesc {α : Type} (score : α → ℚ) (x : α) : List α → List α
  | [] => [x]
  | y :: ys => if score y < score x then x :: y :: ys else y :: insertDesc score x ys

/-- Model of `sorted(l, key=score, reverse=True)` (stable). -/
def rankDesc {α : Type} (score : α → ℚ) (l : List α) : List α :=
  l.foldl (fun acc x => insertDesc score x acc) []

/-! ## The schedule lookup and the scan -/

/-- The dictionary value stored for a schedule row. -/
def offeringSlot (o : Offering) : OfferingSlot :=
  ⟨o.day_pattern, o.start_time, o.end_time, o.term⟩

/-- Model of the `course_to_offering` dictionary: built by iterating the
schedule rows and assigning `d[course_code] = slot`, so a later row with
the same course code overwrites an earlier one. -/
def course_to_offering (schedule : List Offering) : String → Option OfferingSlot :=
  schedule.foldl
    (fun d row => fun c => if c == row.course_code then some (offeringSlot row) else d c)
    (fun _ => none)

/-- Model of the body of the inner pair loop: test the pair for conflict
and, on conflict, add the likelihood-product weight to the four
accumulators and set the student's conflict flag. -/
def processPair (path_type : String) (st : ScanAcc × Bool)
    (pr : SchedCourse × SchedCourse) : Except EngineError (ScanAcc × Bool) :=
  match offerings_conflict pr.1.offering pr.2.offering with
  | none => .error .malformedTime
  | some false => .ok st
  | some true =>
    let w := pr.1.likelihood * pr.2.likelihood
    .ok ({ total_expected_conflicts := st.1.total_expected_conflicts + w,
           students_with_conflict := st.1.students_with_conflict,
           conflicts_by_path := updatePath st.1.conflicts_by_path path_type
             (fun m => { m with expected_conflicts := m.expected_conflicts + w }),
           conflicts_by_course :=
             addCourseWeight (addCourseWeight st.1.conflicts_by_course pr.1.course_code w)
               pr.2.course_code w,
           conflicts_by_pair :=
             addPairWeight st.1.conflicts_by_pair
               (sortedPair pr.1.course_code pr.2.course_code) w },
         true)

/-- Model of the body of the per-student loop: select the student's plan
rows, look the student up in the roster (raising when absent), register
the student's path type, build the scheduled-course list, run the pair
loop, and record the student in the conflicted sets when flagged. -/
def processStudent (plansF : List StudentPlan) (students : List Student)
    (lookup : String → Option OfferingSlot) (acc : ScanAcc) (sid : String) :
    Except EngineError ScanAcc :=
  let student_courses := plansF.filter (fun p => p.student_id == sid)
  match students.find? (fun st => st.student_id == sid) with
  | none => .error (.missingStudent sid)
  | some student_info =>
    let path_type := student_info.path_type
    let acc1 : ScanAcc :=
      { acc with conflicts_by_path := initPath acc.conflicts_by_path path_type }
    let scs : List SchedCourse := student_courses.filterMap (fun p =>
      (lookup p.course_code).map (fun off => ⟨p.course_code, p.likelihood, off⟩))
    match foldE (processPair path_type) (acc1, false) (pairsOf scs) with
    | .error e => .error e
    | .ok (acc2, hasC) =>
      if hasC then
        .ok { acc2 with
          students_with_conflict := insertSet acc2.students_with_conflict sid,
          conflicts_by_path := updatePath acc2.conflicts_by_path path_type
            (fun m =>
              { m with students_with_conflict := insertSet m.students_with_conflict sid }) }
      else .ok acc2

/-- Model of the student scan: process each distinct student id occurring
in the term-filtered plans, in first-occurrence order. -/
def scanStudents (plansF : List StudentPlan) (students : List Student)
    (lookup : String → Option OfferingSlot) : Except EngineError ScanAcc :=
  foldE (processStudent plansF students lookup) initialAcc
    (uniqueKeep (plansF.map (·.student_id)))

/-! ## Result assembly -/

/-- One entry of the emitted `by_path_type` list. -/
structure PathTypeEntry where
  path_type : String
  expected_conflicts : ℚ
  students_with_conflict : Nat
  total_students_in_path : Nat
  conflict_rate : ℚ
deriving DecidableEq

/-- One entry of the emitted `top_conflicting_pairs` list. -/
structure PairEntry where
  course_a : String
  course_b : String
  expected_conflicts : ℚ
deriving DecidableEq

/-- One entry of the emitted `top_conflicting_courses` list. -/
structure CourseEntry where
  course_code : String
  conflict_score : ℚ
deriving DecidableEq

/-- The `metrics` sub-dictionary of the result. -/
structure ConflictMetrics where
  expected_conflicts_all : ℚ
  students_with_conflict : Nat
  conflict_rate_overall : ℚ
  by_path_type : List PathTypeEntry
  top_conflicting_pairs : List PairEntry
  top_conflicting_courses : List CourseEntry
deriving DecidableEq

/-- The dictionary returned by `calculate_conflicts`. -/
structure ConflictResult where
  term : List String
  total_students : Nat
  courses_in_schedule : Nat
  metrics : ConflictMetrics
deriving DecidableEq

/-- Model of one iteration of the `by_path_list` formatting loop: count
the path's roster members, round the accumulated weight, and compute the
conflict rate with the zero-members guard. -/
def mkByPathEntry (students : List Student) (e : String × PathAcc) : PathTypeEntry :=
  let total_in_path := (students.filter (fun st => st.path_type == e.1)).length
  { path_type := e.1,
    expected_conflicts := pyRound 2 e.2.expected_conflicts,
    students_with_conflict := e.2.students_with_conflict.length,
    total_students_in_path := total_in_path,
    conflict_rate :=
      if 0 < total_in_path then
        pyRound 1 ((e.2.students_with_conflict.length : ℚ) / (total_in_path : ℚ) * 100)
      else 0 }

/-- The result dictionary built from the accumulator state: the per-path
list, the two ranked top-10 lists, the rounded totals and the overall
conflict rate. -/
def resultOf (schedule : List Offering) (students : List Student)
    (terms : List String) (acc : ScanAcc) : ConflictResult :=
  { term := terms,
    total_students := students.length,
    courses_in_schedule := schedule.length,
    metrics :=
      { expected_conflicts_all := pyRound 2 acc.total_expected_conflicts,
        students_with_conflict := acc.students_with_conflict.length,
        conflict_rate_overall :=
          pyRound 1
            ((acc.students_with_conflict.length : ℚ) / (students.length : ℚ) * 100),
        by_path_type :=
          rankDesc (fun e => e.expected_conflicts)
            (acc.conflicts_by_path.map (mkByPathEntry students)),
        top_conflicting_pairs :=
          ((rankDesc (fun e => e.2) acc.conflicts_by_pair).take 10).map
            (fun pw =>
              { course_a := pw.1.1, course_b := pw.1.2,
                expected_conflicts := pyRound 2 pw.2 }),
        top_conflicting_courses :=
          ((rankDesc (fun e => e.2) acc.conflicts_by_course).take 10).map
            (fun cs =>
              { course_code := cs.1, conflict_score := pyRound 2 cs.2 }) } }

/-- Model of the result-formatting tail of `calculate_conflicts`.  The
dictionary construction divides by `len(students_df)` with no guard, so an
empty roster raises. -/
def assembleResult (schedule : List Offering) (students : List Student)
    (terms : List String) (acc : ScanAcc) : Except EngineError ConflictResult :=
  if students.length = 0 then .error .divisionByZero
  else .ok (resultOf schedule students terms acc)

/-- The distinct terms present in the schedule, in first-occurrence
order: `schedule_df['term'].unique()`. -/
def termsOf (schedule : List Offering) : List String :=
  uniqueKeep (schedule.map (fun o => o.term))

/-- The plan rows whose term occurs in the schedule:
`student_plans_df[student_plans_df['term'].isin(terms_in_schedule)]`. -/
def filterPlans (schedule : List Offering) (student_plans : List StudentPlan) :
    List StudentPlan :=
  student_plans.filter (fun p => (termsOf schedule).contains p.term)

/-- Model of `conflict_engine.calculate_conflicts`. -/
def calculate_conflicts (schedule : List Offering)
    (student_plans : List StudentPlan) (students : List Student) :
    Except EngineError ConflictResult :=
  match scanStudents (filterPlans schedule student_plans) students
      (course_to_offering schedule) with
  | .error e => .error e
  | .ok acc => assembleResult schedule students (termsOf schedule) acc

/-- The zero-valued result the API layer returns for an empty schedule. -/
def zeroResult (total_students : Nat) : ConflictResult :=
  { term := [],
    total_students := total_students,
    courses_in_schedule := 0,
    metrics :=
      { expected_conflicts_all := 0,
        students_with_conflict := 0,
        conflict_rate_overall := 0,
        by_path_type := [],
        top_conflicting_pairs := [],
        top_conflicting_courses := [] } }

/-- Model of the `/conflicts` endpoint body in `app.py`: short-circuit an
empty schedule to the zero result, otherwise call the engine. -/
def compute_conflicts (schedule : List Offering)
    (student_plans : List StudentPlan) (students : List Student) :
    Except EngineError ConflictResult :=
  if schedule.isEmpty then .ok (zeroResult students.length)
  else calculate_conflicts schedule student_plans students

/-! ## Commutativity lemmas for the pure predicates -/

/-- Day-pattern conflict is insensitive to argument order, for arbitrary
strings. -/
theorem day_patterns_conflict_comm (p q : String) :
    day_patterns_conflict p q = day_patterns_conflict q p := by
  unfold day_patterns_conflict
  rw [Bool.eq_iff_iff]
  simp only [List.any_eq_true, List.contains, List.elem_iff]
  constructor <;> rintro ⟨c, hc1, hc2⟩ <;> exact ⟨c, hc2, hc1⟩

/-- Time-range overlap is insensitive to the order of the two ranges. -/
theorem times_overlap_comm (a b c d : String) :
    times_overlap a b c d = times_overlap c d a b := by
  unfold times_overlap
  cases h1 : time_to_minutes a <;> cases h2 : time_to_minutes b <;>
    cases h3 : time_to_minutes c <;> cases h4 : time_to_minutes d <;>
      simp [h1, h2, h3, h4, Bool.and_comm]

/-- Offering conflict is insensitive to argument order. -/
theorem offerings_conflict_comm (o1 o2 : OfferingSlot) :
    offerings_conflict o1 o2 = offerings_conflict o2 o1 := by
  unfold offerings_conflict
  rw [day_patterns_conflict_comm o1.day_pattern o2.day_pattern,
    times_overlap_comm]

/-! ## Claims C1–C3 -/

/-- C1: for all `HH:MM` times, `times_overlap s1 e1 s2 e2` is true iff, in
minutes since midnight, `s1 < e2` and `s2 < e1`; in particular touching
endpoints do not overlap (`09:00–10:00` vs `10:00–11:00` is false) while
`09:00–10:30` vs `10:00–11:00` is true. -/
theorem times_overlap_halfopen_iff :
    (∀ (s1 e1 s2 e2 : String) (m1 m2 m3 m4 : Nat),
      time_to_minutes s1 = some m1 → time_to_minutes e1 = some m2 →
      time_to_minutes s2 = some m3 → time_to_minutes e2 = some m4 →
      (times_overlap s1 e1 s2 e2 = some true ↔ (m1 < m4 ∧ m3 < m2))) ∧
    times_overlap "09:00" "10:00" "10:00" "11:00" = some false ∧
    times_overlap "09:00" "10:30" "10:00" "11:00" = some true := by
  refine ⟨?_, by decide, by decide⟩
  intro s1 e1 s2 e2 m1 m2 m3 m4 h1 h2 h3 h4
  simp [times_overlap, h1, h2, h3, h4]

/-- Witness for C1: the general overlap criterion applied at the concrete
ranges 08:00–09:30 and 09:00–10:00. -/
theorem times_overlap_halfopen_iff_witness :
    times_overlap "08:00" "09:30" "09:00" "10:00" = some true :=
  (times_overlap_halfopen_iff.1 "08:00" "09:30" "09:00" "10:00"
    480 570 540 600 (by decide) (by decide) (by decide) (by decide)).mpr
    (by decide)

/-- C2: over the four valid day patterns, `day_patterns_conflict` agrees
with intersection of the spec's day-set table; `TR` conflicts exactly with
`TR`, and `MW`, `WF`, `MF` conflict with themselves and each other. -/
theorem day_patterns_conflict_matches_day_sets :
    (∀ p1 ∈ validPatterns, ∀ p2 ∈ validPatterns,
      day_patterns_conflict p1 p2 =
        (specDaySet p1).any (fun c => (specDaySet p2).contains c)) ∧
    (∀ p ∈ validPatterns,
      day_patterns_conflict "TR" p = (p == "TR") ∧
      day_patterns_conflict p "TR" = (p == "TR")) ∧
    (∀ p ∈ ["MW", "WF", "MF"], ∀ q ∈ ["MW", "WF", "MF"],
      day_patterns_conflict p q = true) := by
  refine ⟨?_, ?_, ?_⟩ <;> decide

/-- Witness for C2: the day-set criterion applied at the concrete patterns
`MW` and `WF`. -/
theorem day_patterns_conflict_matches_day_sets_witness :
    day_patterns_conflict "MW" "WF" =
      (specDaySet "MW").any (fun c => (specDaySet "WF").contains c) :=
  day_patterns_conflict_matches_day_sets.1 "MW" (by decide) "WF" (by decide)

/-- C3: both conflict predicates are symmetric (here proved for all
strings and all offerings, which covers the valid patterns), and every
valid day pattern conflicts with itself. -/
theorem conflict_predicates_symmetric :
    (∀ p q : String, day_patterns_conflict p q = day_patterns_conflict q p) ∧
    (∀ o1 o2 : OfferingSlot, offerings_conflict o1 o2 = offerings_conflict o2 o1) ∧
    (∀ p ∈ validPatterns, day_patterns_conflict p p = true) :=
  ⟨day_patterns_conflict_comm, offerings_conflict_comm, by decide⟩

/-- Witness for C3: self-conflict of the concrete pattern `TR`. -/
theorem conflict_predicates_symmetric_witness :
    day_patterns_conflict "TR" "TR" = true :=
  conflict_predicates_symmetric.2.2 "TR" (by decide)

/-! ## Properties of the rounding model -/

/-- `roundHalfEven` lands on the floor or the floor plus one. -/
theorem roundHalfEven_bounds (q : ℚ) :
    ⌊q⌋ ≤ roundHalfEven q ∧ roundHalfEven q ≤ ⌊q⌋ + 1 := by
  unfold roundHalfEven
  split_ifs <;> omega

/-- `roundHalfEven` is monotone. -/
theorem roundHalfEven_mono {a b : ℚ} (h : a ≤ b) :
    roundHalfEven a ≤ roundHalfEven b := by
  have hf : ⌊a⌋ ≤ ⌊b⌋ := Int.floor_le_floor h
  rcases lt_or_eq_of_le hf with hlt | heq
  · have h1 := (roundHalfEven_bounds a).2
    have h2 := (roundHalfEven_bounds b).1
    omega
  · have hfr : a - (⌊b⌋ : ℚ) ≤ b - (⌊b⌋ : ℚ) := by linarith
    unfold roundHalfEven
    rw [heq]
    split_ifs <;> first | omega | (exfalso; linarith)

/-- `pyRound` is monotone in the rounded quantity. -/
theorem pyRound_mono (n : Nat) {a b : ℚ} (h : a ≤ b) :
    pyRound n a ≤ pyRound n b := by
  unfold pyRound
  have h10 : (0 : ℚ) < 10 ^ n := by positivity
  rw [div_le_div_iff_of_pos_right h10]
  exact_mod_cast roundHalfEven_mono (mul_le_mul_of_nonneg_right h (le_of_lt h10))

/-! ## Properties of the stable descending ranking -/

/-- Membership in `insertDesc`. -/
theorem mem_insertDesc {α : Type} (score : α → ℚ) (x : α) (l : List α) (a : α) :
    a ∈ insertDesc score x l ↔ a = x ∨ a ∈ l := by
  induction l with
  | nil => simp [insertDesc]
  | cons y ys ih =>
    unfold insertDesc
    split_ifs
    · simp
    · simp [ih]
      tauto

/-- Inserting into a non-increasing list keeps it non-increasing. -/
theorem pairwise_insertDesc {α : Type} (score : α → ℚ) (x : α) (l : List α)
    (h : List.Pairwise (fun a b => score b ≤ score a) l) :
    List.Pairwise (fun a b => score b ≤ score a) (insertDesc score x l) := by
  induction l with
  | nil => simp [insertDesc]
  | cons y ys ih =>
    rw [List.pairwise_cons] at h
    obtain ⟨hy, hys⟩ := h
    unfold insertDesc
    split_ifs with hxy
    · refine List.Pairwise.cons ?_ (List.Pairwise.cons hy hys)
      intro z hz
      rcases List.mem_cons.mp hz with rfl | hz'
      · exact le_of_lt hxy
      · exact le_trans (hy z hz') (le_of_lt hxy)
    · refine List.Pairwise.cons ?_ (ih hys)
      intro z hz
      rcases (mem_insertDesc score x ys z).mp hz with rfl | hz'
      · exact not_lt.mp hxy
      · exact hy z hz'

/-- The fold underlying `rankDesc` keeps the accumulator non-increasing. -/
theorem pairwise_rankDesc_aux {α : Type} (score : α → ℚ) :
    ∀ (l acc : List α), List.Pairwise (fun a b => score b ≤ score a) acc →
      List.Pairwise (fun a b => score b ≤ score a)
        (l.foldl (fun acc x => insertDesc score x acc) acc) := by
  intro l
  induction l with
  | nil => intro acc h; simpa using h
  | cons x xs ih =>
    intro acc h
    exact ih (insertDesc score x acc) (pairwise_insertDesc score x acc h)

/-- `rankDesc` produces a list whose scores are non-increasing. -/
theorem pairwise_rankDesc {α : Type} (score : α → ℚ) (l : List α) :
    List.Pairwise (fun a b => score b ≤ score a) (rankDesc score l) :=
  pairwise_rankDesc_aux score l [] (by simp)

/-- The fold underlying `rankDesc` preserves the set of members. -/
theorem mem_rankDesc_aux {α : Type} (score : α → ℚ) (a : α) :
    ∀ (l acc : List α),
      a ∈ l.foldl (fun acc x => insertDesc score x acc) acc ↔ a ∈ acc ∨ a ∈ l := by
  intro l
  induction l with
  | nil => intro acc; simp
  | cons x xs ih =>
    intro acc
    rw [List.foldl_cons, ih (insertDesc score x acc), mem_insertDesc]
    simp
    tauto

/-- `rankDesc` permutes the input, in particular it preserves members. -/
theorem mem_rankDesc {α : Type} (score : α → ℚ) (l : List α) (a : α) :
    a ∈ rankDesc score l ↔ a ∈ l := by
  rw [rankDesc, mem_rankDesc_aux]
  simp

/-! ## Properties of the exception-propagating fold -/

/-- A state predicate preserved by every successful step is preserved by a
successful fold. -/
theorem foldE_invariant {ε σ α : Type} (f : σ → α → Except ε σ) (P : σ → Prop)
    (hstep : ∀ s a s', P s → f s a = .ok s' → P s') :
    ∀ (l : List α) (s s' : σ), P s → foldE f s l = .ok s' → P s' := by
  intro l
  induction l with
  | nil =>
    intro s s' hP h
    simp only [foldE] at h
    cases h
    exact hP
  | cons x xs ih =>
    intro s s' hP h
    simp only [foldE] at h
    cases hfx : f s x with
    | error e => rw [hfx] at h; cases h
    | ok s1 => rw [hfx] at h; exact ih s1 s' (hstep s x s1 hP hfx) h

/-- Every error of a fold is the error of some step. -/
theorem foldE_error_source {ε σ α : Type} (f : σ → α → Except ε σ) :
    ∀ (l : List α) (s : σ) (e : ε), foldE f s l = .error e →
      ∃ x ∈ l, ∃ s', f s' x = .error e := by
  intro l
  induction l with
  | nil => intro s e h; simp [foldE] at h
  | cons x xs ih =>
    intro s e h
    simp only [foldE] at h
    cases hfx : f s x with
    | error e' =>
      rw [hfx] at h
      cases h
      exact ⟨x, List.mem_cons_self x xs, s, hfx⟩
    | ok s1 =>
      rw [hfx] at h
      obtain ⟨y, hy, s', hs'⟩ := ih s1 e h
      exact ⟨y, List.mem_cons_of_mem x hy, s', hs'⟩

/-- A fold over a list containing an element on which every state fails
produces an error. -/
theorem foldE_error_of_bad_mem {ε σ α : Type} (f : σ → α → Except ε σ) :
    ∀ (l : List α) (s : σ) (x : α), x ∈ l → (∀ s', ∃ e, f s' x = .error e) →
      ∃ e, foldE f s l = .error e := by
  intro l
  induction l with
  | nil => intro s x hx; cases hx
  | cons y ys ih =>
    intro s x hx hbad
    simp only [foldE]
    rcases List.mem_cons.mp hx with rfl | hx'
    · obtain ⟨e, he⟩ := hbad s
      exact ⟨e, by rw [he]⟩
    · cases hfy : f s y with
      | error e => exact ⟨e, rfl⟩
      | ok s1 => exact ih s1 x hx' hbad

/-- A fold over a list on which every step succeeds from every state
succeeds. -/
theorem foldE_ok_of_all_ok {ε σ α : Type} (f : σ → α → Except ε σ) :
    ∀ (l : List α) (s : σ), (∀ s' x, x ∈ l → ∃ s'', f s' x = .ok s'') →
      ∃ out, foldE f s l = .ok out := by
  intro l
  induction l with
  | nil => intro s _; exact ⟨s, rfl⟩
  | cons x xs ih =>
    intro s hall
    obtain ⟨s1, hs1⟩ := hall s x (List.mem_cons_self x xs)
    simp only [foldE]
    rw [hs1]
    exact ih s1 (fun s' y hy => hall s' y (List.mem_cons_of_mem x hy))

/-! ## Properties of the dictionary and set helpers -/

/-- `uniqueKeep` has the same members as its input. -/
theorem mem_uniqueKeep_aux (x : String) :
    ∀ (l acc : List String),
      x ∈ l.foldl (fun acc y => if acc.contains y then acc else acc ++ [y]) acc ↔
        x ∈ acc ∨ x ∈ l := by
  intro l
  induction l with
  | nil => intro acc; simp
  | cons y ys ih =>
    intro acc
    rw [List.foldl_cons, ih]
    by_cases hy : y ∈ acc
    · simp [hy]
      constructor
      · rintro (h | h)
        · exact Or.inl h
        · exact Or.inr (Or.inr h)
      · rintro (h | rfl | h)
        · exact Or.inl h
        · exact Or.inl hy
        · exact Or.inr h
    · simp [hy]
      tauto

/-- Membership in `uniqueKeep`. -/
theorem mem_uniqueKeep (x : String) (l : List String) :
    x ∈ uniqueKeep l ↔ x ∈ l := by
  rw [uniqueKeep, mem_uniqueKeep_aux]
  simp

/-- Upserting a weight adds exactly that weight to the value column sum. -/
theorem sum_addCourseWeight (l : List (String × ℚ)) (c : String) (w : ℚ) :
    ((addCourseWeight l c w).map (fun e => e.2)).sum =
      (l.map (fun e => e.2)).sum + w := by
  induction l with
  | nil => simp [addCourseWeight]
  | cons e rest ih =>
    unfold addCourseWeight
    split_ifs <;> simp [ih] <;> ring

/-- Both components of a pair produced by `pairsOf` are members of the
input list. -/
theorem mem_of_mem_pairsOf {α : Type} :
    ∀ (l : List α) (pr : α × α), pr ∈ pairsOf l → pr.1 ∈ l ∧ pr.2 ∈ l := by
  intro l
  induction l with
  | nil => intro pr h; cases h
  | cons x xs ih =>
    intro pr h
    simp only [pairsOf, List.mem_append, List.mem_map] at h
    rcases h with ⟨y, hy, rfl⟩ | h
    · exact ⟨List.mem_cons_self x xs, List.mem_cons_of_mem x hy⟩
    · obtain ⟨h1, h2⟩ := ih pr h
      exact ⟨List.mem_cons_of_mem x h1, List.mem_cons_of_mem x h2⟩

/-- The schedule lookup realises last-write-wins: it returns the slot of
the last schedule row carrying the requested course code. -/
theorem course_to_offering_append (l : List Offering) (x : Offering) (c : String) :
    course_to_offering (l ++ [x]) c =
      if c == x.course_code then some (offeringSlot x) else course_to_offering l c := by
  simp [course_to_offering, List.foldl_append]

/-- The schedule lookup equals a first-match search over the reversed
schedule. -/
theorem course_to_offering_eq_findRev (schedule : List Offering) (c : String) :
    course_to_offering schedule c =
      (schedule.reverse.find? (fun r => r.course_code == c)).map offeringSlot := by
  induction schedule using List.reverseRecOn with
  | nil => simp [course_to_offering]
  | append_singleton l x ih =>
    rw [course_to_offering_append, List.reverse_append]
    simp only [List.reverse_cons, List.reverse_nil, List.nil_append,
      List.singleton_append, List.find?_cons]
    by_cases hc : c = x.course_code
    · simp [hc]
    · have h1 : (c == x.course_code) = false := by simp [hc]
      have h2 : (x.course_code == c) = false := by simp [Ne.symm hc]
      rw [h1, h2]
      simpa using ih

/-- A successful schedule lookup returns the slot of some schedule row. -/
theorem course_to_offering_some {schedule : List Offering} {c : String}
    {slot : OfferingSlot} (h : course_to_offering schedule c = some slot) :
    ∃ row ∈ schedule, slot = offeringSlot row := by
  rw [course_to_offering_eq_findRev] at h
  cases hf : schedule.reverse.find? (fun r => r.course_code == c) with
  | none => rw [hf] at h; cases h
  | some row =>
    rw [hf] at h
    cases h
    exact ⟨row, List.mem_reverse.mp (List.mem_of_find?_eq_some hf), rfl⟩

/-! ## Shape of a successful engine run -/

/-- A successful `calculate_conflicts` run is a successful scan followed by
result assembly over a non-empty roster. -/
theorem calculate_conflicts_ok_shape {schedule : List Offering}
    {plans : List StudentPlan} {students : List Student} {res : ConflictResult}
    (h : calculate_conflicts schedule plans students = .ok res) :
    ∃ acc,
      scanStudents (filterPlans schedule plans) students
        (course_to_offering schedule) = .ok acc ∧
      students.length ≠ 0 ∧
      res = resultOf schedule students (termsOf schedule) acc := by
  cases hscan : scanStudents (filterPlans schedule plans) students
      (course_to_offering schedule) with
  | error e =>
    simp only [calculate_conflicts, hscan] at h
    cases h
  | ok acc =>
    simp only [calculate_conflicts, hscan, assembleResult] at h
    by_cases hlen : students.length = 0
    · rw [if_pos hlen] at h
      cases h
    · rw [if_neg hlen] at h
      refine ⟨acc, rfl, hlen, ?_⟩
      cases h
      rfl

/-! ## A concrete engine run used by witnesses

One student planning two overlapping `MW` courses with likelihoods `1`
and `1/2`: a single conflicting pair of weight `1/2`. -/

/-- Concrete offering: `ECI 130`, `MW 10:00–11:00`, term `2026FA`. -/
def wOffA : Offering := ⟨"ECI 130", "MW", "10:00", "11:00", "2026FA"⟩

/-- Concrete offering: `ECI 140`, `MW 10:30–11:30`, term `2026FA`. -/
def wOffB : Offering := ⟨"ECI 140", "MW", "10:30", "11:30", "2026FA"⟩

/-- Concrete roster row. -/
def wStudent : Student := ⟨"s1", "Ada", "JR", "Structures"⟩

/-- Concrete plan row: student `s1` takes `ECI 130` with likelihood `1`. -/
def wPlanA : StudentPlan := ⟨"s1", "ECI 130", "2026FA", 1, "Structures"⟩

/-- Concrete plan row: student `s1` takes `ECI 140` with likelihood `1/2`. -/
def wPlanB : StudentPlan := ⟨"s1", "ECI 140", "2026FA", 1/2, "Structures"⟩

/-- The result of the concrete run. -/
def wRes : ConflictResult :=
  { term := ["2026FA"], total_students := 1, courses_in_schedule := 2,
    metrics :=
      { expected_conflicts_all := 1/2, students_with_conflict := 1,
        conflict_rate_overall := 100,
        by_path_type := [⟨"Structures", 1/2, 1, 1, 100⟩],
        top_conflicting_pairs := [⟨"ECI 130", "ECI 140", 1/2⟩],
        top_conflicting_courses := [⟨"ECI 130", 1/2⟩, ⟨"ECI 140", 1/2⟩] } }

/-- Evaluation of the engine on the concrete run. -/
theorem eval_wRun :
    calculate_conflicts [wOffA, wOffB] [wPlanA, wPlanB] [wStudent] = .ok wRes := by
  simp [calculate_conflicts, scanStudents, filterPlans, termsOf, uniqueKeep, foldE,
    assembleResult, resultOf, course_to_offering, pyRound, roundHalfEven, initialAcc,
    rankDesc, wOffA, wOffB, wStudent, wPlanA, wPlanB, wRes, processStudent, processPair,
    pairsOf, offerings_conflict, day_patterns_conflict, times_overlap, time_to_minutes,
    splitOnChar, splitOnCharAux, parseNat, parseNatAux, offeringSlot, initPath,
    updatePath, addCourseWeight, addPairWeight, sortedPair, lexLe, lexLeChars,
    insertSet, insertDesc, mkByPathEntry]
  norm_num [Int.fract]

/-! ## Claims C5–C8 -/

/-- C5: for every roster and plan set, an empty candidate schedule
short-circuits to the zero-valued result: `term = []`, `total_students` is
the roster size, `courses_in_schedule = 0`, all metrics zero and all
ranked lists empty, without running the engine scan. -/
theorem compute_conflicts_empty_schedule (plans : List StudentPlan)
    (students : List Student) :
    compute_conflicts [] plans students =
      .ok { term := [], total_students := students.length, courses_in_schedule := 0,
            metrics :=
              { expected_conflicts_all := 0, students_with_conflict := 0,
                conflict_rate_overall := 0, by_path_type := [],
                top_conflicting_pairs := [], top_conflicting_courses := [] } } := rfl

/-- C6: every emitted `by_path_type` entry carries the full-roster count of
its path and a conflict rate equal to
`round(conflicted / total_in_path * 100, 1)`, with rate `0` (and no fault)
when the path has no roster members. -/
theorem by_path_type_conflict_rate_formula :
    ∀ (schedule : List Offering) (plans : List StudentPlan)
      (students : List Student) (res : ConflictResult),
      calculate_conflicts schedule plans students = .ok res →
      ∀ entry ∈ res.metrics.by_path_type,
        entry.total_students_in_path =
          (students.filter (fun st => st.path_type == entry.path_type)).length ∧
        entry.conflict_rate =
          (if 0 < entry.total_students_in_path then
            pyRound 1 ((entry.students_with_conflict : ℚ) /
              (entry.total_students_in_path : ℚ) * 100)
          else 0) := by
  intro schedule plans students res h entry hentry
  obtain ⟨acc, hscan, hlen, rfl⟩ := calculate_conflicts_ok_shape h
  have hmem : entry ∈ acc.conflicts_by_path.map (mkByPathEntry students) := by
    have := hentry
    simp only [resultOf] at this
    exact (mem_rankDesc _ _ _).mp this
  obtain ⟨e, he, rfl⟩ := List.mem_map.mp hmem
  exact ⟨rfl, rfl⟩

/-- Witness for C6: the formula instantiated on the emitted path entry of
the concrete run. -/
theorem by_path_type_conflict_rate_formula_witness :
    (⟨"Structures", 1/2, 1, 1, 100⟩ : PathTypeEntry).total_students_in_path =
      ([wStudent].filter
        (fun st => st.path_type ==
          (⟨"Structures", 1/2, 1, 1, 100⟩ : PathTypeEntry).path_type)).length ∧
    (⟨"Structures", 1/2, 1, 1, 100⟩ : PathTypeEntry).conflict_rate =
      (if 0 < (⟨"Structures", 1/2, 1, 1, 100⟩ : PathTypeEntry).total_students_in_path then
        pyRound 1
          (((⟨"Structures", 1/2, 1, 1, 100⟩ : PathTypeEntry).students_with_conflict : ℚ) /
            ((⟨"Structures", 1/2, 1, 1, 100⟩ : PathTypeEntry).total_students_in_path : ℚ) * 100)
      else 0) :=
  by_path_type_conflict_rate_formula [wOffA, wOffB] [wPlanA, wPlanB] [wStudent] wRes
    eval_wRun ⟨"Structures", 1/2, 1, 1, 100⟩ (by simp [wRes])

/-- C7: the emitted `top_conflicting_pairs` and `top_conflicting_courses`
lists have length at most 10 and are sorted non-increasingly by their
emitted score. -/
theorem top_lists_bounded_and_sorted :
    ∀ (schedule : List Offering) (plans : List StudentPlan)
      (students : List Student) (res : ConflictResult),
      calculate_conflicts schedule plans students = .ok res →
      res.metrics.top_conflicting_pairs.length ≤ 10 ∧
      res.metrics.top_conflicting_courses.length ≤ 10 ∧
      List.Pairwise (fun a b => b.expected_conflicts ≤ a.expected_conflicts)
        res.metrics.top_conflicting_pairs ∧
      List.Pairwise (fun a b => b.conflict_score ≤ a.conflict_score)
        res.metrics.top_conflicting_courses := by
  intro schedule plans students res h
  obtain ⟨acc, hscan, hlen, rfl⟩ := calculate_conflicts_ok_shape h
  refine ⟨?_, ?_, ?_, ?_⟩
  · simp only [resultOf, List.length_map, List.length_take]
    exact min_le_left _ _
  · simp only [resultOf, List.length_map, List.length_take]
    exact min_le_left _ _
  · simp only [resultOf]
    rw [List.pairwise_map]
    have hp := pairwise_rankDesc (fun e => e.2) acc.conflicts_by_pair
    have ht := List.Pairwise.sublist (List.take_sublist 10 _) hp
    exact ht.imp (fun hab => pyRound_mono 2 hab)
  · simp only [resultOf]
    rw [List.pairwise_map]
    have hp := pairwise_rankDesc (fun e => e.2) acc.conflicts_by_course
    have ht := List.Pairwise.sublist (List.take_sublist 10 _) hp
    exact ht.imp (fun hab => pyRound_mono 2 hab)

/-- Witness for C7: the bound and sortedness on the concrete run. -/
theorem top_lists_bounded_and_sorted_witness :
    wRes.metrics.top_conflicting_pairs.length ≤ 10 ∧
    wRes.metrics.top_conflicting_courses.length ≤ 10 ∧
    List.Pairwise (fun a b => b.expected_conflicts ≤ a.expected_conflicts)
      wRes.metrics.top_conflicting_pairs ∧
    List.Pairwise (fun a b => b.conflict_score ≤ a.conflict_score)
      wRes.metrics.top_conflicting_courses :=
  top_lists_bounded_and_sorted [wOffA, wOffB] [wPlanA, wPlanB] [wStudent] wRes eval_wRun

/-- C8: the schedule lookup used by the student scan is last-write-wins
(it returns the slot of the last schedule row with the requested course
code, discarding earlier duplicates), while `courses_in_schedule` counts
every schedule row, duplicates included. -/
theorem schedule_lookup_last_write_wins :
    (∀ (schedule : List Offering) (c : String),
      course_to_offering schedule c =
        (schedule.reverse.find? (fun r => r.course_code == c)).map offeringSlot) ∧
    (∀ (schedule : List Offering) (plans : List StudentPlan)
        (students : List Student) (res : ConflictResult),
      calculate_conflicts schedule plans students = .ok res →
      res.courses_in_schedule = schedule.length) := by
  refine ⟨course_to_offering_eq_findRev, ?_⟩
  intro schedule plans students res h
  obtain ⟨acc, hscan, hlen, rfl⟩ := calculate_conflicts_ok_shape h
  rfl

/-- Witness for C8: on the concrete run the emitted course count equals the
number of schedule rows. -/
theorem schedule_lookup_last_write_wins_witness :
    wRes.courses_in_schedule = ([wOffA, wOffB] : List Offering).length :=
  schedule_lookup_last_write_wins.2 [wOffA, wOffB] [wPlanA, wPlanB] [wStudent] wRes
    eval_wRun

/-! ## The per-course sum invariant (claim C4) -/

/-- A conflicting pair adds its weight twice to the per-course column and
once to the global total, so the pair step preserves the 2:1 relation
between the per-course sum and the total. -/
theorem processPair_preserves_course_sum {pt : String} {st st' : ScanAcc × Bool}
    {pr : SchedCourse × SchedCourse} (h : processPair pt st pr = .ok st')
    (hInv : ((st.1.conflicts_by_course.map (fun e => e.2)).sum =
      2 * st.1.total_expected_conflicts)) :
    ((st'.1.conflicts_by_course.map (fun e => e.2)).sum =
      2 * st'.1.total_expected_conflicts) := by
  simp only [processPair] at h
  cases hoc : offerings_conflict pr.1.offering pr.2.offering with
  | none => rw [hoc] at h; cases h
  | some b =>
    rw [hoc] at h
    cases b
    · cases h
      exact hInv
    · cases h
      dsimp only
      rw [sum_addCourseWeight, sum_addCourseWeight, hInv]
      ring

/-- The per-student step preserves the 2:1 relation between the per-course
sum and the total. -/
theorem processStudent_preserves_course_sum {plansF : List StudentPlan}
    {students : List Student} {lookup : String → Option OfferingSlot}
    {acc : ScanAcc} {sid : String} {acc' : ScanAcc}
    (h : processStudent plansF students lookup acc sid = .ok acc')
    (hInv : ((acc.conflicts_by_course.map (fun e => e.2)).sum =
      2 * acc.total_expected_conflicts)) :
    ((acc'.conflicts_by_course.map (fun e => e.2)).sum =
      2 * acc'.total_expected_conflicts) := by
  simp only [processStudent] at h
  split at h
  · cases h
  · rename_i info hfind
    split at h
    · cases h
    · rename_i acc2 hasC hfold
      have hmid : ((acc2.conflicts_by_course.map (fun e => e.2)).sum =
          2 * acc2.total_expected_conflicts) :=
        foldE_invariant _
          (fun st => ((st.1.conflicts_by_course.map (fun e => e.2)).sum =
            2 * st.1.total_expected_conflicts))
          (fun s a s' hs hok => processPair_preserves_course_sum hok hs)
          _ _ _ (by simpa using hInv) hfold
      split at h
      · cases h
        simpa using hmid
      · cases h
        exact hmid

/-- C4 amended: for every successful student scan, the sum of the
accumulated (unrounded) per-course conflict scores equals twice the
accumulated (unrounded) expected-conflict total; each conflicting pair
contributes its weight to exactly two courses and once to the total.  (For
the emitted fields this holds only up to the 2-decimal rounding — see the
counterexample.) -/
theorem per_course_sum_twice_total :
    ∀ (plansF : List StudentPlan) (students : List Student)
      (lookup : String → Option OfferingSlot) (acc : ScanAcc),
      scanStudents plansF students lookup = .ok acc →
      (acc.conflicts_by_course.map (fun e => e.2)).sum =
        2 * acc.total_expected_conflicts := by
  intro plansF students lookup acc h
  rw [scanStudents] at h
  refine foldE_invariant _
    (fun a => ((a.conflicts_by_course.map (fun e => e.2)).sum =
      2 * a.total_expected_conflicts))
    (fun s a s' hs hok => processStudent_preserves_course_sum hok hs)
    _ _ _ ?_ h
  simp [initialAcc]

/-- The accumulator of the concrete run. -/
def wAcc : ScanAcc :=
  ⟨1/2, ["s1"], [("Structures", ⟨1/2, ["s1"]⟩)],
    [("ECI 130", 1/2), ("ECI 140", 1/2)], [(("ECI 130", "ECI 140"), 1/2)]⟩

/-- Evaluation of the student scan on the concrete run. -/
theorem eval_wScan :
    scanStudents [wPlanA, wPlanB] [wStudent] (course_to_offering [wOffA, wOffB]) =
      .ok wAcc := by
  simp [scanStudents, uniqueKeep, foldE, course_to_offering, initialAcc,
    wOffA, wOffB, wStudent, wPlanA, wPlanB, wAcc, processStudent, processPair,
    pairsOf, offerings_conflict, day_patterns_conflict, times_overlap,
    time_to_minutes, splitOnChar, splitOnCharAux, parseNat, parseNatAux,
    offeringSlot, initPath, updatePath, addCourseWeight, addPairWeight,
    sortedPair, lexLe, lexLeChars, insertSet]

/-- Witness for C4 (amended): the 2:1 relation on the concrete scan. -/
theorem per_course_sum_twice_total_witness :
    (wAcc.conflicts_by_course.map (fun e => e.2)).sum =
      2 * wAcc.total_expected_conflicts :=
  per_course_sum_twice_total [wPlanA, wPlanB] [wStudent]
    (course_to_offering [wOffA, wOffB]) wAcc eval_wScan

/-! ## Counterexample input for claim C4 as stated

Two disjoint conflicting pairs, each of weight `1/250 = 0.004`: every
emitted per-course score rounds to `0.00`, but the emitted global total
`0.008` rounds to `0.01`. -/

/-- Counterexample offering `ECI 110`, `MW 10:00–11:00`. -/
def cOffA : Offering := ⟨"ECI 110", "MW", "10:00", "11:00", "2026FA"⟩

/-- Counterexample offering `ECI 120`, `MW 10:30–11:30`. -/
def cOffB : Offering := ⟨"ECI 120", "MW", "10:30", "11:30", "2026FA"⟩

/-- Counterexample offering `ECI 130`, `TR 10:00–11:00`. -/
def cOffC : Offering := ⟨"ECI 130", "TR", "10:00", "11:00", "2026FA"⟩

/-- Counterexample offering `ECI 140`, `TR 10:30–11:30`. -/
def cOffD : Offering := ⟨"ECI 140", "TR", "10:30", "11:30", "2026FA"⟩

/-- Counterexample plan row for `ECI 110`, likelihood `1`. -/
def cPlanA : StudentPlan := ⟨"s1", "ECI 110", "2026FA", 1, "Structures"⟩

/-- Counterexample plan row for `ECI 120`, likelihood `1/250`. -/
def cPlanB : StudentPlan := ⟨"s1", "ECI 120", "2026FA", 1/250, "Structures"⟩

/-- Counterexample plan row for `ECI 130`, likelihood `1`. -/
def cPlanC : StudentPlan := ⟨"s1", "ECI 130", "2026FA", 1, "Structures"⟩

/-- Counterexample plan row for `ECI 140`, likelihood `1/250`. -/
def cPlanD : StudentPlan := ⟨"s1", "ECI 140", "2026FA", 1/250, "Structures"⟩

/-- Counterexample for C4 as stated: on this schedule the sum of the
emitted per-course conflict scores is `0`, while twice the emitted
`expected_conflicts_all` is `2 × 0.01 = 1/50 ≠ 0`. -/
theorem per_course_sum_counterexample :
    (calculate_conflicts [cOffA, cOffB, cOffC, cOffD]
        [cPlanA, cPlanB, cPlanC, cPlanD] [wStudent]).map
      (fun res =>
        ((res.metrics.top_conflicting_courses.map (fun c => c.conflict_score)).sum,
          res.metrics.expected_conflicts_all)) = .ok (0, 1/100) ∧
    (0 : ℚ) ≠ 2 * (1/100) := by
  constructor
  · simp [calculate_conflicts, scanStudents, filterPlans, termsOf, uniqueKeep, foldE,
      assembleResult, resultOf, course_to_offering, pyRound, roundHalfEven, initialAcc,
      rankDesc, cOffA, cOffB, cOffC, cOffD, wStudent, cPlanA, cPlanB, cPlanC, cPlanD,
      processStudent, processPair, pairsOf, offerings_conflict, day_patterns_conflict,
      times_overlap, time_to_minutes, splitOnChar, splitOnCharAux, parseNat, parseNatAux,
      offeringSlot, initPath, updatePath, addCourseWeight, addPairWeight, sortedPair,
      lexLe, lexLeChars, insertSet, insertDesc, mkByPathEntry, Except.map]
    norm_num [Int.fract]
  · norm_num

/-! ## Error analysis of the scan steps (claims C9 and C10) -/

/-- A student id absent from the roster makes the per-student step raise,
whatever the accumulator state. -/
theorem processStudent_orphan {plansF : List StudentPlan} {students : List Student}
    {lookup : String → Option OfferingSlot} {sid : String}
    (hfind : students.find? (fun st => st.student_id == sid) = none) (acc : ScanAcc) :
    processStudent plansF students lookup acc sid = .error (.missingStudent sid) := by
  simp [processStudent, hfind]

/-- The only error a missing-student step can raise is `missingStudent sid`,
and it arises exactly from a failed roster lookup. -/
theorem processStudent_error_missing {plansF : List StudentPlan}
    {students : List Student} {lookup : String → Option OfferingSlot}
    {acc : ScanAcc} {sid x : String}
    (h : processStudent plansF students lookup acc sid = .error (.missingStudent x)) :
    students.find? (fun st => st.student_id == sid) = none ∧ x = sid := by
  simp only [processStudent] at h
  split at h
  · rename_i hfind
    cases h
    exact ⟨hfind, rfl⟩
  · rename_i info hfind
    split at h
    · rename_i e' hfold
      cases h
      obtain ⟨pr, hpr, st', hperr⟩ := foldE_error_source _ _ _ _ hfold
      simp only [processPair] at hperr
      split at hperr
      · simp at hperr
      · cases hperr
      · cases hperr
    · split at h
      · cases h
      · cases h

/-- A day-and-time conflict test on slots with parseable times never
raises. -/
theorem offerings_conflict_isSome {o1 o2 : OfferingSlot}
    (h1 : (time_to_minutes o1.start_time).isSome)
    (h2 : (time_to_minutes o1.end_time).isSome)
    (h3 : (time_to_minutes o2.start_time).isSome)
    (h4 : (time_to_minutes o2.end_time).isSome) :
    ∃ b, offerings_conflict o1 o2 = some b := by
  unfold offerings_conflict
  split_ifs
  · exact ⟨false, rfl⟩
  · obtain ⟨m1, hm1⟩ := Option.isSome_iff_exists.mp h1
    obtain ⟨m2, hm2⟩ := Option.isSome_iff_exists.mp h2
    obtain ⟨m3, hm3⟩ := Option.isSome_iff_exists.mp h3
    obtain ⟨m4, hm4⟩ := Option.isSome_iff_exists.mp h4
    unfold times_overlap
    rw [hm1, hm2, hm3, hm4]
    exact ⟨_, rfl⟩

/-- Every scheduled course built by the scan carries the slot of some
schedule row. -/
theorem schedCourse_offering_from_schedule {schedule : List Offering}
    {plansF : List StudentPlan} {sid : String} {z : SchedCourse}
    (hz : z ∈ (plansF.filter (fun p => p.student_id == sid)).filterMap (fun p =>
      (course_to_offering schedule p.course_code).map
        (fun off => ⟨p.course_code, p.likelihood, off⟩))) :
    ∃ row ∈ schedule, z.offering = offeringSlot row := by
  obtain ⟨p, hp, hpz⟩ := List.mem_filterMap.mp hz
  cases hlk : course_to_offering schedule p.course_code with
  | none => rw [hlk] at hpz; cases hpz
  | some off =>
    rw [hlk] at hpz
    obtain ⟨row, hrow, hoff⟩ := course_to_offering_some hlk
    cases hpz
    exact ⟨row, hrow, hoff⟩

/-- When the student is on the roster and every schedule time parses, the
per-student step succeeds. -/
theorem processStudent_ok {plansF : List StudentPlan} {students : List Student}
    {schedule : List Offering} (acc : ScanAcc) (sid : String)
    (hfind : (students.find? (fun st => st.student_id == sid)).isSome)
    (htimes : ∀ o ∈ schedule, (time_to_minutes o.start_time).isSome ∧
      (time_to_minutes o.end_time).isSome) :
    ∃ acc', processStudent plansF students (course_to_offering schedule) acc sid =
      .ok acc' := by
  obtain ⟨info, hinfo⟩ := Option.isSome_iff_exists.mp hfind
  have hpairs : ∀ (st : ScanAcc × Bool) (pr : SchedCourse × SchedCourse),
      pr ∈ pairsOf ((plansF.filter (fun p => p.student_id == sid)).filterMap (fun p =>
        (course_to_offering schedule p.course_code).map
          (fun off => ⟨p.course_code, p.likelihood, off⟩))) →
      ∃ st', processPair info.path_type st pr = .ok st' := by
    intro st pr hpr
    obtain ⟨h1m, h2m⟩ := mem_of_mem_pairsOf _ pr hpr
    obtain ⟨r1, hr1, ho1⟩ := schedCourse_offering_from_schedule h1m
    obtain ⟨r2, hr2, ho2⟩ := schedCourse_offering_from_schedule h2m
    have ha : (time_to_minutes pr.1.offering.start_time).isSome := by
      rw [ho1]; exact (htimes r1 hr1).1
    have hb : (time_to_minutes pr.1.offering.end_time).isSome := by
      rw [ho1]; exact (htimes r1 hr1).2
    have hc : (time_to_minutes pr.2.offering.start_time).isSome := by
      rw [ho2]; exact (htimes r2 hr2).1
    have hd : (time_to_minutes pr.2.offering.end_time).isSome := by
      rw [ho2]; exact (htimes r2 hr2).2
    obtain ⟨b, hbconf⟩ := offerings_conflict_isSome ha hb hc hd
    cases hres : processPair info.path_type st pr with
    | ok st' => exact ⟨st', rfl⟩
    | error e =>
      cases b
      · simp [processPair, hbconf] at hres
      · simp [processPair, hbconf] at hres
  obtain ⟨p2, hp2⟩ := foldE_ok_of_all_ok (processPair info.path_type) _
    ({acc with conflicts_by_path := initPath acc.conflicts_by_path info.path_type},
      false)
    (fun st pr hpr => hpairs st pr hpr)
  obtain ⟨acc2, hasC⟩ := p2
  cases hres : processStudent plansF students (course_to_offering schedule) acc sid with
  | ok acc' => exact ⟨acc', rfl⟩
  | error e =>
    cases hasC <;> simp [processStudent, hinfo, hp2] at hres

/-! ## Claims C9 and C10 -/

/-- C9: a term-filtered plan row whose student id is missing from the
roster makes `calculate_conflicts` raise instead of returning a result;
when every plan row's student id is on the roster, the roster lookup never
faults (no `missingStudent` error is possible). -/
theorem orphan_plan_row_faults :
    ∀ (schedule : List Offering) (plans : List StudentPlan)
      (students : List Student),
      ((∃ p ∈ filterPlans schedule plans,
          students.find? (fun st => st.student_id == p.student_id) = none) →
        ∃ e, calculate_conflicts schedule plans students = .error e) ∧
      ((∀ p ∈ plans,
          (students.find? (fun st => st.student_id == p.student_id)).isSome) →
        ∀ x, calculate_conflicts schedule plans students ≠
          .error (.missingStudent x)) := by
  intro schedule plans students
  constructor
  · rintro ⟨p, hp, hfind⟩
    have hsid : p.student_id ∈
        uniqueKeep ((filterPlans schedule plans).map (fun q => q.student_id)) :=
      (mem_uniqueKeep _ _).mpr (List.mem_map_of_mem _ hp)
    have hbad : ∀ s, ∃ e, processStudent (filterPlans schedule plans) students
        (course_to_offering schedule) s p.student_id = .error e :=
      fun s => ⟨.missingStudent p.student_id, processStudent_orphan hfind s⟩
    obtain ⟨e, he⟩ :=
      foldE_error_of_bad_mem _ _ initialAcc p.student_id hsid hbad
    exact ⟨e, by simp only [calculate_conflicts, scanStudents, he]⟩
  · intro hall x hcontra
    have hscanerr : scanStudents (filterPlans schedule plans) students
        (course_to_offering schedule) = .error (.missingStudent x) := by
      cases hscan : scanStudents (filterPlans schedule plans) students
          (course_to_offering schedule) with
      | error e =>
        simp only [calculate_conflicts, hscan, Except.error.injEq] at hcontra
        rw [hcontra]
      | ok acc =>
        simp only [calculate_conflicts, hscan, assembleResult] at hcontra
        split_ifs at hcontra
        simp at hcontra
    rw [scanStudents] at hscanerr
    obtain ⟨sid, hsidmem, s', hserr⟩ := foldE_error_source _ _ _ _ hscanerr
    obtain ⟨hfnone, heq⟩ := processStudent_error_missing hserr
    have hmap : sid ∈ (filterPlans schedule plans).map (fun q => q.student_id) :=
      (mem_uniqueKeep _ _).mp hsidmem
    obtain ⟨q, hq, hqid⟩ := List.mem_map.mp hmap
    have hq' : q ∈ plans := (List.mem_filter.mp hq).1
    have hqs := hall q hq'
    rw [hqid, hfnone] at hqs
    simp at hqs

/-- Witness for C9: the concrete orphan run (one plan row, empty roster)
raises. -/
theorem orphan_plan_row_faults_witness :
    (∃ p ∈ filterPlans [wOffA] [wPlanA],
      ([] : List Student).find? (fun st => st.student_id == p.student_id) = none) ∧
    (∃ e, calculate_conflicts [wOffA] [wPlanA] [] = .error e) :=
  ⟨⟨wPlanA, by simp [filterPlans, termsOf, uniqueKeep, wOffA, wPlanA], rfl⟩,
    (orphan_plan_row_faults [wOffA] [wPlanA] []).1
      ⟨wPlanA, by simp [filterPlans, termsOf, uniqueKeep, wOffA, wPlanA], rfl⟩⟩

/-- A roster row whose id matches no plan row. -/
def wStudent2 : Student := ⟨"s2", "Bob", "SO", "Geotech"⟩

/-- Counterexample for C10 as stated: with an empty roster and a term-
matching plan row, the failure is the roster lookup (`IndexError` on the
positional `.iloc[0]`), not the division by zero; and a non-empty roster
alone does not guarantee a complete result — an orphaned plan row still
makes the run fail with the roster-lookup error. -/
theorem empty_roster_error_kind_counterexample :
    calculate_conflicts [wOffA] [wPlanA] [] = .error (.missingStudent "s1") ∧
    EngineError.missingStudent "s1" ≠ EngineError.divisionByZero ∧
    calculate_conflicts [wOffA] [wPlanA] [wStudent2] =
      .error (.missingStudent "s1") :=
  ⟨rfl, by decide, rfl⟩

/-- C10 amended: with an empty roster (and a non-empty schedule)
`calculate_conflicts` always fails — by the unguarded division for
`conflict_rate_overall` when the scan completes, or already at the roster
lookup when a term-matching plan row is scanned; with a non-empty roster,
every plan row's student on the roster and parseable schedule times, it
returns a complete result. -/
theorem empty_roster_faults_nonempty_roster_succeeds :
    ∀ (schedule : List Offering) (plans : List StudentPlan)
      (students : List Student),
      (students = [] → schedule ≠ [] →
        ∃ e, calculate_conflicts schedule plans students = .error e) ∧
      (students ≠ [] →
        (∀ p ∈ plans,
          (students.find? (fun st => st.student_id == p.student_id)).isSome) →
        (∀ o ∈ schedule, (time_to_minutes o.start_time).isSome ∧
          (time_to_minutes o.end_time).isSome) →
        ∃ res, calculate_conflicts schedule plans students = .ok res) := by
  intro schedule plans students
  constructor
  · rintro rfl hsched
    cases hscan : scanStudents (filterPlans schedule plans) []
        (course_to_offering schedule) with
    | error e => exact ⟨e, by simp only [calculate_conflicts, hscan]⟩
    | ok acc =>
      exact ⟨.divisionByZero, by simp [calculate_conflicts, hscan, assembleResult]⟩
  · intro hne hall htimes
    have hok : ∀ (s : ScanAcc) (sid : String),
        sid ∈ uniqueKeep ((filterPlans schedule plans).map (fun q => q.student_id)) →
        ∃ s', processStudent (filterPlans schedule plans) students
          (course_to_offering schedule) s sid = .ok s' := by
      intro s sid hsid
      have hmap : sid ∈ (filterPlans schedule plans).map (fun q => q.student_id) :=
        (mem_uniqueKeep _ _).mp hsid
      obtain ⟨q, hq, hqid⟩ := List.mem_map.mp hmap
      have hq' : q ∈ plans := (List.mem_filter.mp hq).1
      have hfind : (students.find? (fun st => st.student_id == sid)).isSome := by
        rw [← hqid]; exact hall q hq'
      exact processStudent_ok s sid hfind htimes
    obtain ⟨acc, hacc⟩ :=
      foldE_ok_of_all_ok _ _ initialAcc (fun s' y hy => hok s' y hy)
    have hlen : students.length ≠ 0 := by
      intro h0
      exact hne (List.length_eq_zero.mp h0)
    exact ⟨resultOf schedule students (termsOf schedule) acc,
      by simp only [calculate_conflicts, scanStudents, hacc, assembleResult,
        if_neg hlen]⟩

/-- Witness for C10 (amended): both halves instantiated on concrete runs —
the orphan run with empty roster fails, the wholesome run succeeds. -/
theorem empty_roster_faults_nonempty_roster_succeeds_witness :
    (∃ e, calculate_conflicts [wOffA] [wPlanA] ([] : List Student) = .error e) ∧
    (∃ res, calculate_conflicts [wOffA, wOffB] [wPlanA, wPlanB] [wStudent] =
      .ok res) :=
  ⟨(empty_roster_faults_nonempty_roster_succeeds [wOffA] [wPlanA] []).1 rfl
      (by decide),
    (empty_roster_faults_nonempty_roster_succeeds [wOffA, wOffB] [wPlanA, wPlanB]
        [wStudent]).2 (by decide) (by decide) (by decide)⟩

end CeeScheduler
